import Mathlib

/-!
Verification of the Bridge_ScaleCmd_Rust scale-gateway core.

The Rust sources are shallowly embedded:
* strings are `List Char` (wrapped in `String` at the boundary);
* the regex patterns of the response parsers are hand-compiled into
  deterministic scanners (the patterns involved have no essential
  backtracking, as argued in comments at each scanner);
* weights are exact rationals: the device responses parsed here are short
  decimal strings, and the code applies no arithmetic to them beyond
  negation and a comparison with zero, so `Rat` is a faithful model of the
  `f64` values produced by `str::parse::<f64>`;
* timestamps (`Utc::now`) are dropped from `WeightReading`: no claim
  observes them;
* character classes (`\d`, `\s`, case mapping) are modelled at the ASCII
  level, which is where all configuration keys and device responses of the
  claims live;
* the registry (`DeviceManager`) is modelled as a record of association
  lists standing for the four `HashMap`s, and its async mutation methods
  become pure state transformers; file I/O (`read_config`) becomes an
  explicit `Except BridgeError AppConfig` argument, and `write_config`
  updates a `persisted` field of the state.
-/

namespace Bridge

/-! ## Character classes and basic string helpers -/

/-- ASCII digit, modelling the regex class `\d` on the ASCII plane. -/
def isAsciiDigit (c : Char) : Bool := '0' ≤ c && c ≤ '9'

/-- Whitespace as matched by the regex class `\s` (ASCII part). -/
def isRegexSpace (c : Char) : Bool :=
  c = ' ' || c = '\t' || c = '\n' || c = '\r' || c = '\x0b' || c = '\x0c'

/-- Whitespace as trimmed by Rust `str::trim` (common part; the exotic
Unicode whitespace characters never appear in the claims). -/
def isRustWhitespace (c : Char) : Bool :=
  isRegexSpace c || c = ' '

/-- Characters matched by the unit regex `[A-Za-z%]+`. -/
def isUnitChar (c : Char) : Bool :=
  ('A' ≤ c && c ≤ 'Z') || ('a' ≤ c && c ≤ 'z') || c = '%'

/-- Rust `str::trim` on the character list. -/
def rustTrim (cs : List Char) : List Char :=
  ((cs.dropWhile isRustWhitespace).reverse.dropWhile isRustWhitespace).reverse

/-- ASCII lower-casing of one character, modelling `char::to_lowercase`
for the ASCII range used by the configuration keys. -/
def lowerChar (c : Char) : Char := c.toLower

/-- ASCII upper-casing of one character. -/
def upperChar (c : Char) : Char := c.toUpper

def toLowerStr (cs : List Char) : List Char := cs.map lowerChar

def toUpperStr (cs : List Char) : List Char := cs.map upperChar

/-- Lower-casing on `String`, modelling `str::to_lowercase` (ASCII). -/
def lowerS (s : String) : String := ⟨toLowerStr s.data⟩

/-- Upper-casing on `String`, modelling `str::to_uppercase` (ASCII). -/
def upperS (s : String) : String := ⟨toUpperStr s.data⟩

/-! ## Exact decimal numbers

`str::parse::<f64>` applied to the short sign/digits/point strings captured
by the parsers.  The value is kept as an exact rational. -/

def digitVal (c : Char) : ℕ := c.toNat - '0'.toNat

def digitsToNat (cs : List Char) : ℕ :=
  cs.foldl (fun acc c => 10 * acc + digitVal c) 0

/-- Parse an unsigned decimal string: `digits+ ('.' digits*)?` or
`'.' digits+` (the fragment of the Rust float grammar reachable from the
captured substrings; exponents, inf and NaN cannot be captured). -/
def parseUnsignedDecimal (cs : List Char) : Option ℚ :=
  let intPart := cs.takeWhile isAsciiDigit
  let rest := cs.dropWhile isAsciiDigit
  match rest with
  | [] =>
    if intPart.isEmpty then none else some (mkRat (digitsToNat intPart) 1)
  | '.' :: rest2 =>
    let frac := rest2.takeWhile isAsciiDigit
    let rest3 := rest2.dropWhile isAsciiDigit
    if rest3.isEmpty && (!intPart.isEmpty || !frac.isEmpty) then
      some (mkRat (digitsToNat (intPart ++ frac)) (10 ^ frac.length))
    else none
  | _ => none

/-- Rust `str::parse::<f64>` on the simple decimal strings that the
scanners produce, as an exact rational. -/
def parseF64Simple : List Char → Option ℚ
  | '+' :: cs => parseUnsignedDecimal cs
  | '-' :: cs => (parseUnsignedDecimal cs).map Neg.neg
  | cs => parseUnsignedDecimal cs

/-! ## Result types -/

/-- scaleit_miernik WeightReading (miernik/src/models.rs), minus the
timestamp, with exact-rational weights. -/
structure WeightReading where
  gross_weight : ℚ
  net_weight : ℚ
  unit : String
  is_stable : Bool
deriving DecidableEq, Repr

/-- miernik/src/error.rs MiernikError. -/
inductive MiernikError where
  | DeviceError (msg : String)
  | InvalidCommand (msg : String)
  | ProtocolError (msg : String)
  | ConfigurationError (msg : String)
  | HostError (msg : String)
deriving DecidableEq, Repr

instance {ε α : Type} [DecidableEq ε] [DecidableEq α] : DecidableEq (Except ε α) := fun a b =>
  match a, b with
  | .ok x, .ok y =>
    if h : x = y then isTrue (by subst h; rfl)
    else isFalse (by intro hh; injection hh with h2; exact h h2)
  | .error x, .error y =>
    if h : x = y then isTrue (by subst h; rfl)
    else isFalse (by intro hh; injection hh with h2; exact h h2)
  | .ok _, .error _ => isFalse (fun hh => Except.noConfusion hh)
  | .error _, .ok _ => isFalse (fun hh => Except.noConfusion hh)

/-! ## The Dini Argeo ASCII parser

miernik/src/parsers.rs, `parse_dini_ascii_response`.  This is the parser
that is live behind `DeviceManager` (through `DiniArgeoDFW` and
`Device::execute_command`). -/

/-- Leftmost match of `DINI_VALUE_RE = [+-]?\d+(?:\.\d+)?` at the head of
the input; returns the matched characters.  The pattern has no essential
backtracking: an optional sign can only be followed by digits, the
fractional group is entered only when a digit follows the point. -/
def diniNumTryAt (cs : List Char) : Option (List Char) :=
  let (sgn, r1) : List Char × List Char :=
    match cs with
    | c :: rest => if c = '+' || c = '-' then ([c], rest) else ([], cs)
    | [] => ([], [])
  let a := r1.takeWhile isAsciiDigit
  let r2 := r1.dropWhile isAsciiDigit
  if a.isEmpty then none
  else
    match r2 with
    | '.' :: r3 =>
      let b := r3.takeWhile isAsciiDigit
      if b.isEmpty then some (sgn ++ a) else some (sgn ++ a ++ '.' :: b)
    | _ => some (sgn ++ a)

/-- Leftmost-first search for `DINI_VALUE_RE` over the input. -/
def diniNumFind : List Char → Option (List Char)
  | [] => none
  | c :: cs =>
    match diniNumTryAt (c :: cs) with
    | some m => some m
    | none => diniNumFind cs

/-- Leftmost match of the unit regex `[A-Za-z%]+`: the first maximal run
of letters or percent signs. -/
def unitFind (cs : List Char) : Option (List Char) :=
  let r := cs.dropWhile (fun c => !isUnitChar c)
  let u := r.takeWhile isUnitChar
  if u.isEmpty then none else some u

/-- miernik/src/parsers.rs `parse_dini_ascii_response`. -/
def parseDiniAsciiResponse (response : List Char) : Except MiernikError WeightReading :=
  if response.isEmpty then
    .error (.ProtocolError "Empty response from device")
  else
    let cleaned := rustTrim response
    if toUpperStr cleaned = "OK".data then
      .ok { gross_weight := 0, net_weight := 0, unit := "kg", is_stable := true }
    else
      match diniNumFind cleaned with
      | none =>
        .error (.ProtocolError "Unexpected response format")
      | some numStr =>
        match parseF64Simple numStr with
        | none => .error (.ProtocolError "Failed to parse weight")
        | some w =>
          let unit : List Char := ((unitFind cleaned).map toLowerStr).getD "kg".data
          let is_stable := !(cleaned.contains 'U') && !(cleaned.contains 'u')
          .ok { gross_weight := w, net_weight := w, unit := ⟨unit⟩, is_stable := is_stable }

/-! ## The Rinstrum RINCMD parser

miernik/src/parsers.rs, `parse_rincmd_response`, the parser live behind
`DeviceManager` (through `RinstrumC320` and `Device::execute_command`).
Each `lazy_static` regex is compiled by hand into a scanner that walks the
input left to right and, at each start position, runs the unique viable
parse of the pattern; for these patterns greedy matching never needs to
backtrack (digit runs are always followed by a mandatory non-digit, the
alternations have disjoint first characters). -/

/-- `RINCMD_PATTERN1 = (\d{8})([+-])(\d+\.\d+)(kg|lb)` attempted at one
start position.  Returns (command code, sign, number string, unit). -/
def pattern1TryAt (cs : List Char) : Option (List Char × Char × List Char × List Char) :=
  let code := cs.take 8
  if code.length = 8 && code.all isAsciiDigit then
    match cs.drop 8 with
    | sign :: rest =>
      if sign = '+' || sign = '-' then
        let a := rest.takeWhile isAsciiDigit
        let r1 := rest.dropWhile isAsciiDigit
        if a.isEmpty then none
        else
          match r1 with
          | dot :: r2 =>
            if dot = '.' then
              let b := r2.takeWhile isAsciiDigit
              let r3 := r2.dropWhile isAsciiDigit
              if b.isEmpty then none
              else if r3.take 2 = ['k', 'g'] then some (code, sign, a ++ '.' :: b, ['k', 'g'])
              else if r3.take 2 = ['l', 'b'] then some (code, sign, a ++ '.' :: b, ['l', 'b'])
              else none
            else none
          | [] => none
      else none
    | [] => none
  else none

/-- Leftmost-first search for `RINCMD_PATTERN1`. -/
def pattern1Find : List Char → Option (List Char × Char × List Char × List Char)
  | [] => none
  | c :: cs =>
    match pattern1TryAt (c :: cs) with
    | some r => some r
    | none => pattern1Find cs

/-- `RINCMD_PATTERN2 = :\s*([+-]?)\s*(\d+\.?\d*)\s*(kg|lb|g)\s*([GNTZ])`
attempted just after a `:`.  Returns (optional sign, number string, unit,
status letter). -/
def pattern2TryAfterColon (cs : List Char) : Option (Option Char × List Char × List Char × Char) :=
  let r0 := cs.dropWhile isRegexSpace
  let (sgn, r1) : Option Char × List Char :=
    match r0 with
    | c :: rest => if c = '+' || c = '-' then (some c, rest) else (none, r0)
    | [] => (none, r0)
  let r2 := r1.dropWhile isRegexSpace
  let a := r2.takeWhile isAsciiDigit
  let r3 := r2.dropWhile isAsciiDigit
  if a.isEmpty then none
  else
    let (num, r4) : List Char × List Char :=
      match r3 with
      | '.' :: r3' => (a ++ '.' :: r3'.takeWhile isAsciiDigit, r3'.dropWhile isAsciiDigit)
      | _ => (a, r3)
    let r5 := r4.dropWhile isRegexSpace
    let unitRes : Option (List Char × List Char) :=
      if r5.take 2 = ['k', 'g'] then some (['k', 'g'], r5.drop 2)
      else if r5.take 2 = ['l', 'b'] then some (['l', 'b'], r5.drop 2)
      else if r5.take 1 = ['g'] then some (['g'], r5.drop 1)
      else none
    match unitRes with
    | none => none
    | some (unit, r6) =>
      match r6.dropWhile isRegexSpace with
      | st :: _ =>
        if st = 'G' || st = 'N' || st = 'T' || st = 'Z' then some (sgn, num, unit, st) else none
      | [] => none

/-- Leftmost-first search for `RINCMD_PATTERN2`: the pattern starts with a
literal `:`, so only colon positions are attempted. -/
def pattern2Find : List Char → Option (Option Char × List Char × List Char × Char)
  | [] => none
  | ':' :: cs =>
    (match pattern2TryAfterColon cs with
     | some r => some r
     | none => pattern2Find cs)
  | _ :: cs => pattern2Find cs

/-- `RINCMD_NUM_RE = ([+-]?\s*\d+(?:\.\d+)?)` attempted at one start
position.  Returns (matched characters, rest of input after the match). -/
def numTryAt (cs : List Char) : Option (List Char × List Char) :=
  let (sgn, r1) : List Char × List Char :=
    match cs with
    | c :: rest => if c = '+' || c = '-' then ([c], rest) else ([], cs)
    | [] => ([], [])
  let sp := r1.takeWhile isRegexSpace
  let r2 := r1.dropWhile isRegexSpace
  let a := r2.takeWhile isAsciiDigit
  let r3 := r2.dropWhile isAsciiDigit
  if a.isEmpty then none
  else
    match r3 with
    | '.' :: r4 =>
      let b := r4.takeWhile isAsciiDigit
      if b.isEmpty then some (sgn ++ sp ++ a, r3)
      else some (sgn ++ sp ++ a ++ '.' :: b, r4.dropWhile isAsciiDigit)
    | _ => some (sgn ++ sp ++ a, r3)

/-- Leftmost-first search for `RINCMD_NUM_RE`. -/
def numFind : List Char → Option (List Char × List Char)
  | [] => none
  | c :: cs =>
    match numTryAt (c :: cs) with
    | some r => some r
    | none => numFind cs

/-- The fallback normalisation table of `parse_rincmd_response`: control
and no-break-space characters become plain spaces, the Unicode dash
variants become the ASCII hyphen-minus. -/
def normalizeChar (c : Char) : Char :=
  if c = '\t' || c = '\n' || c = '\x0b' || c = '\x0c' || c = '\r' || c = ' ' then ' '
  else if c = '−' || c = '–' || c = '—' || c = '―' || c = '‑' || c = '－' then '-'
  else c

/-- First whitespace-separated token of the cleaned input, mirroring
`cleaned.split_whitespace().collect()` followed by the emptiness test and
`parts[0]`. -/
def firstToken (cs : List Char) : Option (List Char) :=
  let r := cs.dropWhile isRustWhitespace
  if r.isEmpty then none else some (r.takeWhile (fun c => !isRustWhitespace c))

/-- `cleaned.find(':')` followed by taking the text after it: the suffix
after the FIRST colon, or none when no colon occurs. -/
def afterFirstColon : List Char → Option (List Char)
  | [] => none
  | ':' :: rest => some rest
  | _ :: rest => afterFirstColon rest

/-- miernik/src/parsers.rs `parse_rincmd_response`. -/
def parseRincmdResponse (response : List Char) : Except MiernikError WeightReading :=
  if response.isEmpty then
    .error (.ProtocolError "Empty response from device")
  else
    match pattern1Find response with
    | some (code, sign, value, unit) =>
      (match parseF64Simple (sign :: value) with
       | none => .error (.ProtocolError "Failed to parse weight")
       | some w =>
         let isGross := code = "20050026".data
         .ok { gross_weight := if isGross then w else 0
               net_weight := if isGross then 0 else w
               unit := ⟨toLowerStr unit⟩
               is_stable := true })
    | none =>
    match pattern2Find response with
    | some (sgn, value, unit, status) =>
      (match parseF64Simple value with
       | none => .error (.ProtocolError "Failed to parse value")
       | some v =>
         let w := if sgn = some '-' then -v else v
         let isNet := status = 'N'
         let is_stable := status = 'G' || status = 'N' || status = 'Z' || status = 'T'
         .ok { gross_weight := if isNet then 0 else w
               net_weight := if isNet then w else 0
               unit := ⟨toLowerStr unit⟩
               is_stable := is_stable })
    | none =>
      let cleaned := (rustTrim response).map normalizeChar
      if cleaned = "E".data || response = "E".data then
        .error (.ProtocolError "Device returned error 'E'")
      else
        match firstToken cleaned with
        | none => .error (.ProtocolError "Empty response from device")
        | some t0 =>
          let stable0 := t0 = "S".data
          let searchSpace :=
            match afterFirstColon cleaned with
            | some rest => rustTrim rest
            | none => cleaned
          match numFind searchSpace with
          | none => .error (.ProtocolError "Unexpected response format")
          | some (m, after) =>
            let numStr := m.filter (fun c => c ≠ ' ')
            match parseF64Simple numStr with
            | none => .error (.ProtocolError "Failed to parse weight")
            | some w =>
              let is_stable := if w = 0 then true else stable0
              let unit : List Char := (unitFind after).getD "kg".data
              .ok { gross_weight := w, net_weight := w, unit := ⟨unit⟩, is_stable := is_stable }

/-! ## Association-list maps

The registry `HashMap`s are modelled as association lists with the usual
first-match lookup; `insertKey` overwrites in place or appends, matching
`HashMap::insert`, and `removeKey` matches `HashMap::remove`. -/

def lookupKey (k : String) : List (String × α) → Option α
  | [] => none
  | (k', v) :: rest => if k' = k then some v else lookupKey k rest

def insertKey (k : String) (v : α) : List (String × α) → List (String × α)
  | [] => [(k, v)]
  | (k', v') :: rest => if k' = k then (k, v) :: rest else (k', v') :: insertKey k v rest

def removeKey (k : String) : List (String × α) → List (String × α)
  | [] => []
  | (k', v') :: rest => if k' = k then rest else (k', v') :: removeKey k rest

/-- The keys of a map are pairwise distinct, which every `HashMap` state
guarantees. -/
def keysNodup (m : List (String × α)) : Prop := (m.map Prod.fst).Nodup

instance [DecidableEq α] (m : List (String × α)) : Decidable (keysNodup m) :=
  inferInstanceAs (Decidable ((m.map Prod.fst).Nodup))

/-! ## Configuration model

src/models: host.rs `HostConfig` and `AppConfig`, miernik.rs
`MiernikConfig`, and the device entry as consumed and produced by
device_manager.rs (fields name, manufacturer, model, host_id, miernik_id,
enabled; src/models/device.rs still carries the superseded legacy shape,
the `DeviceManager` accesses exactly these fields). -/

inductive StopBits | One | Two
deriving DecidableEq, Repr

inductive Parity | None | Even | Odd
deriving DecidableEq, Repr

inductive FlowControl | None | Software | Hardware
deriving DecidableEq, Repr

/-- src/models/device.rs `ConnectionConfig`. -/
inductive ConnectionConfig where
  | Tcp (host : String) (port : ℕ)
  | Serial (port : String) (baud_rate : ℕ) (data_bits : ℕ)
      (stop_bits : StopBits) (parity : Parity) (flow_control : FlowControl)
deriving DecidableEq, Repr

structure HostConfig where
  name : String
  connection : ConnectionConfig
  timeout_ms : ℕ
  enabled : Bool
deriving DecidableEq, Repr

structure MiernikConfig where
  name : String
  protocol : String
  manufacturer : String
  model : String
  commands : List (String × String)
  enabled : Bool
deriving DecidableEq, Repr

structure DeviceConfig where
  name : String
  manufacturer : String
  model : String
  host_id : String
  miernik_id : String
  enabled : Bool
deriving DecidableEq, Repr

structure AppConfig where
  hosts : List (String × HostConfig)
  mierniki : List (String × MiernikConfig)
  devices : List (String × DeviceConfig)
deriving DecidableEq, Repr

/-- src/error.rs `BridgeError` (the `IoError` and `SerializationError`
payloads become their display strings). -/
inductive BridgeError where
  | DeviceNotFound (msg : String)
  | ConnectionError (msg : String)
  | CommandError (msg : String)
  | ConfigurationError (msg : String)
  | IoError (msg : String)
  | SerializationError (msg : String)
  | Timeout (msg : String)
  | ProtocolError (msg : String)
  | InvalidCommand (msg : String)
  | InternalServerError (msg : String)
  | Unknown (msg : String)
deriving DecidableEq, Repr

/-- host/src/protocol.rs `Protocol`. -/
inductive Protocol where
  | Rincmd
  | DiniAscii
  | Custom (s : String)
deriving DecidableEq, Repr

/-- host/src/protocol.rs `Protocol::from_str`. -/
def Protocol.fromStr (s : String) : Protocol :=
  let u := upperS s
  if u = "RINCMD" || u = "RINSTRUM" then .Rincmd
  else if u = "DINI_ASCII" || u = "DINI_ARGEO" || u = "ASCII" then .DiniAscii
  else .Custom s

/-- host crate `Connection` as built by
`DeviceManager::convert_host_to_connection`. -/
inductive Connection where
  | Tcp (host : String) (port : ℕ) (timeout_ms : ℕ)
  | Serial (port : String) (baud_rate : ℕ) (data_bits : ℕ)
      (stop_bits : StopBits) (parity : Parity) (flow_control : FlowControl) (timeout_ms : ℕ)
deriving DecidableEq, Repr

/-- `DeviceManager::convert_host_to_connection` (the serialport enum
conversions are identity on this model; the source function returns `Ok`
in every branch). -/
def convertHostToConnection (h : HostConfig) : Connection :=
  match h.connection with
  | .Tcp host port => .Tcp host port h.timeout_ms
  | .Serial port baud data stop par flow => .Serial port baud data stop par flow h.timeout_ms

/-! ## Adapters

`RinstrumC320::from_config` and `DiniArgeoDFW::from_config`
(miernik/src/devices.rs) store the device id, the protocol, the shared
connection and a command map whose keys were lowercased; the live socket
or port handle inside the connection is not part of the claims and is
tracked through the reload event trace instead. -/

/-- Command-key normalisation of `from_config`: the `HashMap` rebuilt
with `k.to_lowercase()` keys, later duplicates overwriting earlier. -/
def normalizeCmdKeys (cmds : List (String × String)) : List (String × String) :=
  cmds.foldl (fun acc kv => insertKey (lowerS kv.1) kv.2 acc) []

structure Adapter where
  device_id : String
  protocol : Protocol
  connection : Connection
  commands : List (String × String)
deriving DecidableEq, Repr

/-- miernik/src/device.rs `Device::execute_command`, the command-lookup
phase: the requested name is lowercased and looked up in the normalised
command map; a miss is the typed unknown-command error. -/
def deviceLookupCommand (commands : List (String × String)) (cmd : String) :
    Except MiernikError String :=
  match lookupKey (lowerS cmd) commands with
  | none => .error (.InvalidCommand ("Unknown command: " ++ cmd))
  | some raw => .ok raw

/-! ## DeviceManager -/

/-- src/models/weight.rs `ScaleCommandRequest`. -/
structure ScaleCommandRequest where
  device_id : String
  command : String
deriving DecidableEq, Repr

/-- The in-memory state of `DeviceManager` plus the persisted
configuration file content (`config_path`): the four `RwLock`ed maps
become plain association lists, `write_config` snapshots the maps into
`persisted`. -/
structure ManagerState where
  hosts : List (String × HostConfig)
  mierniki : List (String × MiernikConfig)
  devices : List (String × DeviceConfig)
  adapters : List (String × Adapter)
  persisted : AppConfig
deriving DecidableEq, Repr

/-- One device step of `DeviceManager::build_adapters`: skip a disabled
device, resolve host and miernik (missing ones are configuration errors),
reject `Custom` protocols, otherwise build the adapter via
`from_config`. -/
def buildAdapterFor (hosts : List (String × HostConfig))
    (mierniki : List (String × MiernikConfig))
    (device_id : String) (dc : DeviceConfig) : Except BridgeError (Option Adapter) :=
  if !dc.enabled then .ok none
  else
    match lookupKey dc.host_id hosts with
    | none =>
      .error (.ConfigurationError
        ("Host '" ++ dc.host_id ++ "' not found for device '" ++ device_id ++ "'"))
    | some hostCfg =>
      match lookupKey dc.miernik_id mierniki with
      | none =>
        .error (.ConfigurationError
          ("Miernik '" ++ dc.miernik_id ++ "' not found for device '" ++ device_id ++ "'"))
      | some mk =>
        match Protocol.fromStr mk.protocol with
        | .Custom _ =>
          .error (.ConfigurationError ("Unsupported protocol: " ++ mk.protocol))
        | p =>
          .ok (some { device_id := device_id, protocol := p,
                      connection := convertHostToConnection hostCfg,
                      commands := normalizeCmdKeys mk.commands })

/-- The device loop of `DeviceManager::build_adapters`, folding over the
device map (the `HashMap` iteration order is unspecified; every claim
below is order-independent). -/
def buildAdaptersGo (hosts : List (String × HostConfig))
    (mierniki : List (String × MiernikConfig)) :
    List (String × DeviceConfig) → List (String × Adapter) →
    Except BridgeError (List (String × Adapter))
  | [], acc => .ok acc
  | (id, dc) :: rest, acc =>
    match buildAdapterFor hosts mierniki id dc with
    | .error e => .error e
    | .ok none => buildAdaptersGo hosts mierniki rest acc
    | .ok (some a) => buildAdaptersGo hosts mierniki rest (insertKey id a acc)

/-- src/device_manager.rs `DeviceManager::build_adapters`. -/
def buildAdapters (hosts : List (String × HostConfig))
    (mierniki : List (String × MiernikConfig))
    (devices : List (String × DeviceConfig)) : Except BridgeError (List (String × Adapter)) :=
  buildAdaptersGo hosts mierniki devices []

/-- `DeviceManager::from_config`: builds the adapters for the given
configuration and, on success, the initial state (a failure aborts the
whole construction and no manager exists).  `persisted` starts as the
configuration just read by `from_path`. -/
def fromConfig (cfg : AppConfig) : Except BridgeError ManagerState :=
  match buildAdapters cfg.hosts cfg.mierniki cfg.devices with
  | .error e => .error e
  | .ok ads =>
    .ok { hosts := cfg.hosts, mierniki := cfg.mierniki, devices := cfg.devices,
          adapters := ads, persisted := cfg }

/-- `DeviceManager::write_config`: snapshot the three configuration maps
into the persisted file. -/
def writeConfig (st : ManagerState) : ManagerState :=
  { st with persisted := { hosts := st.hosts, mierniki := st.mierniki, devices := st.devices } }

/-- src/device_manager.rs `DeviceManager::save_config`: insert the device
entry, then persist.  Nothing else is touched. -/
def saveConfig (st : ManagerState) (device_id : String) (cfg : DeviceConfig) : ManagerState :=
  writeConfig { st with devices := insertKey device_id cfg st.devices }

/-- src/device_manager.rs `DeviceManager::delete_config`: remove the
device entry (an unknown id is `DeviceNotFound` and nothing changes, the
write is not reached), then persist. -/
def deleteConfig (st : ManagerState) (device_id : String) :
    ManagerState × Except BridgeError Unit :=
  match lookupKey device_id st.devices with
  | none => (st, .error (.DeviceNotFound device_id))
  | some _ => (writeConfig { st with devices := removeKey device_id st.devices }, .ok ())

/-- The guard-and-dispatch phase of `DeviceManager::execute_command`:
look the device up in the device map (missing id is `DeviceNotFound`, a
disabled device is `InvalidCommand`), then fetch the live adapter
(missing adapter is `DeviceNotFound`).  Only an `ok` result hands an
adapter out for the actual I/O; the state is never modified, so no
adapter is ever created here. -/
def executeCommandRoute (st : ManagerState) (req : ScaleCommandRequest) :
    Except BridgeError Adapter :=
  match lookupKey req.device_id st.devices with
  | none => .error (.DeviceNotFound req.device_id)
  | some cfg =>
    if !cfg.enabled then
      .error (.InvalidCommand ("Device " ++ req.device_id ++ " is disabled"))
    else
      match lookupKey req.device_id st.adapters with
      | none => .error (.DeviceNotFound req.device_id)
      | some a => .ok a

/-! ## Reload and the adapter swap trace

`rebuild_adapters` is modelled with an explicit event trace: one
`disconnectOld` per adapter of the outgoing map (the disconnect loop),
then `installSwap` (the write-lock assignment of the new map), then one
`connectNew` per adapter of the incoming map (`connect_all_devices`). -/

inductive SwapEvent where
  | disconnectOld (id : String)
  | installSwap
  | connectNew (id : String)
deriving DecidableEq, Repr

/-- src/device_manager.rs `DeviceManager::rebuild_adapters`.  A build
failure propagates before any disconnect or swap happens. -/
def rebuildAdapters (st : ManagerState) :
    ManagerState × Except BridgeError Unit × List SwapEvent :=
  match buildAdapters st.hosts st.mierniki st.devices with
  | .error e => (st, .error e, [])
  | .ok newAds =>
    ({ st with adapters := newAds }, .ok (),
     (st.adapters.map fun p => SwapEvent.disconnectOld p.1) ++
       SwapEvent.installSwap :: (newAds.map fun p => SwapEvent.connectNew p.1))

/-- src/device_manager.rs `DeviceManager::reload_config`.  `read_config`
is file I/O, so the disk content arrives as an argument; a read failure
changes nothing.  On a successful read the three configuration maps are
overwritten first and only then are the adapters rebuilt. -/
def reloadConfig (st : ManagerState) (disk : Except BridgeError AppConfig) :
    ManagerState × Except BridgeError Unit × List SwapEvent :=
  match disk with
  | .error e => (st, .error e, [])
  | .ok cfg =>
    rebuildAdapters
      { st with hosts := cfg.hosts, mierniki := cfg.mierniki, devices := cfg.devices,
                persisted := cfg }

/-! ## Spec-modelled fallback value functions (for comparison with the code)

`rincmdHexSpecValue` follows the words of the specification sentence
behind claim C5; `rincmdFallbackSpecValue` follows the amended reading.
Both are compared against `parseRincmdResponse` in the theorems below. -/

def isHexDigitChar (c : Char) : Bool :=
  isAsciiDigit c || ('A' ≤ c && c ≤ 'F') || ('a' ≤ c && c ≤ 'f')

def isHexLetter (c : Char) : Bool :=
  ('A' ≤ c && c ≤ 'F') || ('a' ≤ c && c ≤ 'f')

def hexDigitVal (c : Char) : ℕ :=
  if isAsciiDigit c then digitVal c
  else if 'A' ≤ c && c ≤ 'F' then c.toNat - 'A'.toNat + 10
  else c.toNat - 'a'.toNat + 10

def hexToNat (cs : List Char) : ℕ :=
  cs.foldl (fun acc c => 16 * acc + hexDigitVal c) 0

/-- The text after the last colon of the input, or the whole input when
no colon occurs. -/
def afterLastColon (cs : List Char) : List Char :=
  if cs.contains ':' then (cs.reverse.takeWhile (fun c => c ≠ ':')).reverse else cs

/-- Modelled from the spec sentence of claim C5: search the text after
the last colon (if any) for a leading run of hex digits; a run holding an
A-F letter is a 32-bit two's-complement hex value (sign-extended), a
pure-digit run is plain decimal.  The normalisation steps shared with the
code path are applied first so that the comparison is about the value
rule itself. -/
def rincmdHexSpecValue (response : List Char) : Option ℚ :=
  let cleaned := (rustTrim response).map normalizeChar
  let tail := rustTrim (afterLastColon cleaned)
  let run := tail.takeWhile isHexDigitChar
  if run.isEmpty then none
  else if run.any isHexLetter then
    let n : ℕ := hexToNat run % 2 ^ 32
    some (mkRat (if n < 2 ^ 31 then (n : ℤ) else (n : ℤ) - 2 ^ 32) 1)
  else
    some (mkRat (digitsToNat run) 1)

/-- Modelled from the amended claim C5: the fallback value is the
leftmost optionally-signed decimal number (spaces tolerated between sign
and digits) of the text after the FIRST colon (the whole input when no
colon occurs), parsed as plain decimal; hex runs get no special
treatment. -/
def rincmdFallbackSpecValue (response : List Char) : Option ℚ :=
  let cleaned := (rustTrim response).map normalizeChar
  let searchSpace :=
    match afterFirstColon cleaned with
    | some rest => rustTrim rest
    | none => cleaned
  match numFind searchSpace with
  | none => none
  | some (m, _) => parseF64Simple (m.filter (fun c => c ≠ ' '))

/-- The signed value carried by a pattern-1 capture, as the code computes
it: `format!("{}{}", sign, value).parse::<f64>()`. -/
def signedNumVal (sign : Char) (num : List Char) : ℚ :=
  (parseF64Simple (sign :: num)).getD 0

/-! ## Concrete fixtures

A one-device registry used by the witnesses and counterexamples: one TCP
host, one RINCMD miernik, one enabled device. -/

def exCommands : List (String × String) := [("readGross", "20050026"), ("readNet", "20050025")]

def exHost : HostConfig := ⟨"Host 1", .Tcp "127.0.0.1" 4001, 1000, true⟩

def exMiernik : MiernikConfig := ⟨"Rinstrum C320", "RINCMD", "Rinstrum", "C320", exCommands, true⟩

def exDevice : DeviceConfig := ⟨"Scale 1", "Rinstrum", "C320", "h1", "m1", true⟩

def exDeviceDisabled : DeviceConfig := { exDevice with enabled := false }

def exCfg : AppConfig := ⟨[("h1", exHost)], [("m1", exMiernik)], [("d1", exDevice)]⟩

/-- The adapter `build_adapters` produces for `exCfg` (command keys
lowercased by `from_config`). -/
def exAdapter : Adapter :=
  ⟨"d1", .Rincmd, .Tcp "127.0.0.1" 4001 1000, [("readgross", "20050026"), ("readnet", "20050025")]⟩

/-- The manager state `from_config` produces for `exCfg`. -/
def exSt : ManagerState := ⟨exCfg.hosts, exCfg.mierniki, exCfg.devices, [("d1", exAdapter)], exCfg⟩

/-- `exSt` after `save_config("d1", disabled copy)`. -/
def exStDisabled : ManagerState := saveConfig exSt "d1" exDeviceDisabled

def exCfgEmpty : AppConfig := ⟨[], [], []⟩

/-- The empty manager state built from the empty configuration. -/
def exStEmpty : ManagerState := ⟨[], [], [], [], exCfgEmpty⟩

/-- A configuration whose single enabled device references a missing
host: `build_adapters` rejects it with a `ConfigurationError`. -/
def exCfgBadHost : AppConfig := ⟨[], [], [("d1", exDevice)]⟩

/-! ## Map lemmas -/

theorem lookupKey_insertKey (k k' : String) (v : α) (m : List (String × α)) :
    lookupKey k (insertKey k' v m) = if k' = k then some v else lookupKey k m := by
  induction m with
  | nil => simp [insertKey, lookupKey]
  | cons p rest ih =>
    obtain ⟨k₀, v₀⟩ := p
    by_cases h0 : k₀ = k'
    · subst h0
      by_cases h1 : k₀ = k <;> simp [insertKey, lookupKey, h1]
    · by_cases h1 : k₀ = k
      · subst h1
        have : ¬ k' = k₀ := fun hh => h0 hh.symm
        simp [insertKey, lookupKey, h0, this]
      · simp [insertKey, lookupKey, h0, h1, ih]

theorem mem_of_lookupKey {m : List (String × α)} {k : String} {v : α}
    (h : lookupKey k m = some v) : (k, v) ∈ m := by
  induction m with
  | nil => simp [lookupKey] at h
  | cons p rest ih =>
    obtain ⟨k₀, v₀⟩ := p
    by_cases h0 : k₀ = k
    · subst h0
      simp [lookupKey] at h
      simp [h]
    · simp [lookupKey, h0] at h
      exact List.mem_cons_of_mem _ (ih h)

theorem lookupKey_of_mem_nodup {m : List (String × α)} {k : String} {v : α}
    (hnd : keysNodup m) (hmem : (k, v) ∈ m) : lookupKey k m = some v := by
  induction m with
  | nil => simp at hmem
  | cons p rest ih =>
    obtain ⟨k₀, v₀⟩ := p
    have hnd' : k₀ ∉ rest.map Prod.fst ∧ keysNodup rest := by
      simpa [keysNodup] using hnd
    rcases List.mem_cons.mp hmem with heq | hmem'
    · injection heq with hk hv
      subst hk; subst hv
      simp [lookupKey]
    · by_cases h0 : k₀ = k
      · subst h0
        exact absurd (List.mem_map_of_mem Prod.fst hmem') hnd'.1
      · simpa [lookupKey, h0] using ih hnd'.2 hmem'

/-! ## Build lemmas -/

theorem buildAdapterFor_some_enabled {hosts : List (String × HostConfig)}
    {mierniki : List (String × MiernikConfig)} {id : String} {dc : DeviceConfig} {a : Adapter}
    (h : buildAdapterFor hosts mierniki id dc = .ok (some a)) : dc.enabled = true := by
  by_cases he : dc.enabled
  · exact he
  · simp [buildAdapterFor, he] at h

theorem buildAdaptersGo_lookup {hosts : List (String × HostConfig)}
    {mierniki : List (String × MiernikConfig)} :
    ∀ {devs : List (String × DeviceConfig)} {acc res : List (String × Adapter)},
      buildAdaptersGo hosts mierniki devs acc = .ok res →
      ∀ {id : String} {a : Adapter}, lookupKey id res = some a →
        (∃ dc, (id, dc) ∈ devs ∧ dc.enabled = true) ∨ lookupKey id acc = some a := by
  intro devs
  induction devs with
  | nil =>
    intro acc res h id a hl
    simp [buildAdaptersGo] at h
    subst h
    exact Or.inr hl
  | cons p rest ih =>
    intro acc res h id a hl
    obtain ⟨id₀, dc₀⟩ := p
    simp only [buildAdaptersGo] at h
    rcases hb : buildAdapterFor hosts mierniki id₀ dc₀ with e | oa
    · rw [hb] at h; exact absurd h (by simp)
    · rw [hb] at h
      match oa, h with
      | none, h =>
        rcases ih h hl with ⟨dc, hdm, hde⟩ | hacc
        · exact Or.inl ⟨dc, List.mem_cons_of_mem _ hdm, hde⟩
        · exact Or.inr hacc
      | some a₀, h =>
        rcases ih h hl with ⟨dc, hdm, hde⟩ | hacc
        · exact Or.inl ⟨dc, List.mem_cons_of_mem _ hdm, hde⟩
        · rw [lookupKey_insertKey] at hacc
          by_cases h0 : id₀ = id
          · subst h0
            exact Or.inl ⟨dc₀, List.mem_cons_self _ _, buildAdapterFor_some_enabled hb⟩
          · rw [if_neg h0] at hacc
            exact Or.inr hacc

/-! ## Claim theorems -/

/-- Claim C1: the guard phase of execute_command.  An unknown device id
yields DeviceNotFound and a disabled device yields the typed
InvalidCommand, in both cases as errors of the pure routing function, so
no adapter is handed out and no I/O can be attempted; and whenever an
adapter is handed out, the device exists in the device map, is enabled,
and the adapter is the one already stored in the adapters map - the
routing function never fabricates an adapter. -/
theorem execute_command_checks_device_and_enabled_before_dispatch
    (st : ManagerState) (req : ScaleCommandRequest) :
    (lookupKey req.device_id st.devices = none →
      executeCommandRoute st req = .error (.DeviceNotFound req.device_id)) ∧
    (∀ cfg, lookupKey req.device_id st.devices = some cfg → cfg.enabled = false →
      executeCommandRoute st req =
        .error (.InvalidCommand ("Device " ++ req.device_id ++ " is disabled"))) ∧
    (∀ a, executeCommandRoute st req = .ok a →
      ∃ cfg, lookupKey req.device_id st.devices = some cfg ∧ cfg.enabled = true ∧
        lookupKey req.device_id st.adapters = some a) := by
  refine ⟨?_, ?_, ?_⟩
  · intro h
    simp [executeCommandRoute, h]
  · intro cfg hc he
    simp [executeCommandRoute, hc, he]
  · intro a ha
    unfold executeCommandRoute at ha
    split at ha
    · exact absurd ha (by simp)
    next cfg hd =>
      split at ha
      · exact absurd ha (by simp)
      next he =>
        split at ha
        · exact absurd ha (by simp)
        next a' hl =>
          injection ha with ha'
          exact ⟨cfg, hd, by simpa using he, by rw [← ha']; exact hl⟩

/-- Claim C1 witness: on the concrete one-device registry, an unknown id
is DeviceNotFound and the disabled device is InvalidCommand. -/
theorem execute_command_checks_witness :
    executeCommandRoute exSt ⟨"zz", "readGross"⟩ = .error (.DeviceNotFound "zz") ∧
    executeCommandRoute exStDisabled ⟨"d1", "readGross"⟩ =
      .error (.InvalidCommand "Device d1 is disabled") :=
  ⟨(execute_command_checks_device_and_enabled_before_dispatch exSt ⟨"zz", "readGross"⟩).1
      (by decide),
   (execute_command_checks_device_and_enabled_before_dispatch exStDisabled
      ⟨"d1", "readGross"⟩).2.1 exDeviceDisabled (by decide) (by decide)⟩

/-- Claim C10 (amended): save_config and delete_config mutate only the
device map and the persisted file; the hosts, mierniki and adapters maps
are untouched by both, in the error branch of delete_config nothing at
all changes, and no adapter is built, destroyed or disconnected (the
operations do not touch the adapters map at all).  The further clause of
the original claim - that a configuration edit affects command dispatch
only after a reload - is refuted by the counterexample below: dispatch
consults the device map first, so a disable or delete changes the
dispatch outcome immediately. -/
theorem save_delete_touch_only_devices_and_persisted
    (st : ManagerState) (id : String) (cfg : DeviceConfig) :
    ((saveConfig st id cfg).adapters = st.adapters ∧
     (saveConfig st id cfg).hosts = st.hosts ∧
     (saveConfig st id cfg).mierniki = st.mierniki ∧
     (saveConfig st id cfg).devices = insertKey id cfg st.devices ∧
     (saveConfig st id cfg).persisted =
       ⟨st.hosts, st.mierniki, insertKey id cfg st.devices⟩) ∧
    ((deleteConfig st id).1.adapters = st.adapters ∧
     (deleteConfig st id).1.hosts = st.hosts ∧
     (deleteConfig st id).1.mierniki = st.mierniki ∧
     (lookupKey id st.devices = none → (deleteConfig st id).1 = st) ∧
     (lookupKey id st.devices ≠ none →
       (deleteConfig st id).1.devices = removeKey id st.devices)) := by
  refine ⟨⟨rfl, rfl, rfl, rfl, rfl⟩, ?_, ?_, ?_, ?_, ?_⟩ <;>
    unfold deleteConfig <;> rcases h : lookupKey id st.devices with _ | c <;>
      simp [writeConfig]

/-- Claim C10 witness: the frame theorem applied to the concrete
registry - deleting an unknown device id changes nothing at all. -/
theorem save_delete_frame_witness :
    (deleteConfig exSt "zz").1 = exSt :=
  (save_delete_touch_only_devices_and_persisted exSt "zz" exDevice).2.2.2.2.1 (by decide)

/-- Claim C10 counterexample: on the concrete registry, dispatch for
device d1 succeeds, and after save_config stores a disabled copy - with
no reload in between, the adapter map still holding the live adapter -
dispatch immediately returns the typed InvalidCommand.  The edit
therefore affects command dispatch before any reload. -/
theorem save_config_changes_dispatch_without_reload_counterexample :
    executeCommandRoute exSt ⟨"d1", "readGross"⟩ = .ok exAdapter ∧
    exStDisabled.adapters = exSt.adapters ∧
    executeCommandRoute exStDisabled ⟨"d1", "readGross"⟩ =
      .error (.InvalidCommand "Device d1 is disabled") := by
  refine ⟨by decide, by decide, by decide⟩

/-- The C2 invariant: every key holding a live adapter is an enabled
device of the device map. -/
def AdapterInvariant (st : ManagerState) : Prop :=
  ∀ id a, lookupKey id st.adapters = some a →
    ∃ c, lookupKey id st.devices = some c ∧ c.enabled = true

/-- Claim C2 (amended): the invariant - adapter keys are enabled devices -
holds for every freshly built adapter map: after from_config and after
every successful reload (build_adapters skips disabled devices and fails
on unknown configuration, so only enabled devices of the new device map
get adapters).  The original claim extended this to save_config and
delete_config; the counterexample below shows those two leave a stale
adapter behind, so the invariant is not preserved by them. -/
theorem adapter_invariant_after_build_and_reload :
    (∀ cfg st, keysNodup cfg.devices → fromConfig cfg = .ok st → AdapterInvariant st) ∧
    (∀ st cfg st' tr, keysNodup cfg.devices →
      reloadConfig st (.ok cfg) = (st', .ok (), tr) → AdapterInvariant st') := by
  have key : ∀ (hosts : List (String × HostConfig)) (mierniki : List (String × MiernikConfig))
      (devices : List (String × DeviceConfig)) (ads : List (String × Adapter)),
      keysNodup devices → buildAdapters hosts mierniki devices = .ok ads →
      ∀ id a, lookupKey id ads = some a →
        ∃ c, lookupKey id devices = some c ∧ c.enabled = true := by
    intro hosts mierniki devices ads hnd hb id a hl
    rcases buildAdaptersGo_lookup hb hl with ⟨dc, hdm, hde⟩ | hacc
    · exact ⟨dc, lookupKey_of_mem_nodup hnd hdm, hde⟩
    · simp [lookupKey] at hacc
  constructor
  · intro cfg st hnd hf
    unfold fromConfig at hf
    rcases hb : buildAdapters cfg.hosts cfg.mierniki cfg.devices with e | ads
    · rw [hb] at hf; exact absurd hf (by simp)
    · rw [hb] at hf
      injection hf with hf'
      intro id a hl
      rw [← hf'] at hl
      have := key cfg.hosts cfg.mierniki cfg.devices ads hnd hb id a hl
      rw [← hf']
      exact this
  · intro st cfg st' tr hnd hr
    unfold reloadConfig rebuildAdapters at hr
    rcases hb : buildAdapters cfg.hosts cfg.mierniki cfg.devices with e | ads
    · simp only [hb] at hr
      exact absurd (congrArg (fun p => p.2.1) hr) (by simp)
    · simp only [hb] at hr
      have hst : st' = ⟨cfg.hosts, cfg.mierniki, cfg.devices, ads, cfg⟩ :=
        (congrArg Prod.fst hr).symm
      subst hst
      intro id a hl
      exact key cfg.hosts cfg.mierniki cfg.devices ads hnd hb id a hl

/-- Claim C2 witness: the invariant theorem applied to the concrete
one-device configuration and to a reload of the empty registry with that
configuration. -/
theorem adapter_invariant_after_build_witness :
    AdapterInvariant exSt ∧
    AdapterInvariant (reloadConfig exStEmpty (.ok exCfg)).1 :=
  ⟨adapter_invariant_after_build_and_reload.1 exCfg exSt (by decide) (by decide),
   adapter_invariant_after_build_and_reload.2 exStEmpty exCfg
     (reloadConfig exStEmpty (.ok exCfg)).1
     (reloadConfig exStEmpty (.ok exCfg)).2.2 (by decide) (by decide)⟩

/-- Claim C2 counterexample: a reachable state violating the invariant.
Starting from the registry built for the one-device configuration,
save_config stores a disabled copy of d1; the adapter map still holds the
live adapter for d1 while the device map now says d1 is disabled - the
invariant of the claim fails, and it equally fails for delete_config,
which also leaves the adapters map untouched. -/
theorem adapter_invariant_violated_by_disable_counterexample :
    fromConfig exCfg = .ok exSt ∧
    lookupKey "d1" exStDisabled.adapters = some exAdapter ∧
    (lookupKey "d1" exStDisabled.devices).map DeviceConfig.enabled = some false ∧
    lookupKey "d1" ((deleteConfig exSt "d1").1).adapters = some exAdapter ∧
    lookupKey "d1" ((deleteConfig exSt "d1").1).devices = none := by
  refine ⟨by decide, by decide, by decide, by decide, by decide⟩

/-- Claim C3: on a successful rebuild the event trace is some disconnect
block A, then the swap that installs the replacement map, then a connect
block B: every old adapter is disconnected inside A (before the swap),
every event of B is a connect of a new adapter, and consequently there is
no point of the trace at which a new adapter has been connected while an
old adapter has not yet been disconnected - so an old and a new adapter
never hold a physical connection simultaneously. -/
theorem reload_disconnects_old_before_swap_before_connects
    (st st' : ManagerState) (tr : List SwapEvent)
    (h : rebuildAdapters st = (st', .ok (), tr)) :
    ∃ A B, tr = A ++ SwapEvent.installSwap :: B ∧
      (∀ e ∈ A, ∃ id, e = SwapEvent.disconnectOld id) ∧
      (∀ id, (lookupKey id st.adapters).isSome = true → SwapEvent.disconnectOld id ∈ A) ∧
      (∀ e ∈ B, ∃ id, e = SwapEvent.connectNew id) ∧
      (∀ id, (lookupKey id st'.adapters).isSome = true → SwapEvent.connectNew id ∈ B) ∧
      (∀ t idO idN, (lookupKey idO st.adapters).isSome = true →
        SwapEvent.connectNew idN ∈ tr.take t → SwapEvent.disconnectOld idO ∈ tr.take t) := by
  unfold rebuildAdapters at h
  rcases hb : buildAdapters st.hosts st.mierniki st.devices with e | newAds
  · rw [hb] at h
    exact absurd (congrArg (fun p => p.2.1) h) (by simp)
  · rw [hb] at h
    have hst : ({ st with adapters := newAds } : ManagerState) = st' := congrArg Prod.fst h
    have htr : (st.adapters.map fun p => SwapEvent.disconnectOld p.1) ++
        SwapEvent.installSwap :: (newAds.map fun p => SwapEvent.connectNew p.1) = tr :=
      congrArg (fun p => p.2.2) h
    refine ⟨st.adapters.map fun p => SwapEvent.disconnectOld p.1,
      newAds.map fun p => SwapEvent.connectNew p.1, htr.symm, ?_, ?_, ?_, ?_, ?_⟩
    · intro e he
      rcases List.mem_map.mp he with ⟨p, _, hp⟩
      exact ⟨p.1, hp.symm⟩
    · intro id hid
      rcases Option.isSome_iff_exists.mp hid with ⟨a, ha⟩
      exact List.mem_map_of_mem _ (mem_of_lookupKey ha)
    · intro e he
      rcases List.mem_map.mp he with ⟨p, _, hp⟩
      exact ⟨p.1, hp.symm⟩
    · intro id hid
      have hads : st'.adapters = newAds := by rw [← hst]
      rw [hads] at hid
      rcases Option.isSome_iff_exists.mp hid with ⟨a, ha⟩
      exact List.mem_map_of_mem _ (mem_of_lookupKey ha)
    · intro t idO idN hidO hmem
      set A := st.adapters.map fun p => SwapEvent.disconnectOld p.1 with hA
      set B := newAds.map fun p => SwapEvent.connectNew p.1 with hB
      rw [← htr] at hmem ⊢
      rw [List.take_append_eq_append_take] at hmem ⊢
      rcases List.mem_append.mp hmem with hmemA | hmemB
      · have : SwapEvent.connectNew idN ∈ A := List.take_subset _ _ hmemA
        rcases List.mem_map.mp this with ⟨p, _, hp⟩
        exact absurd hp (by simp)
      · have hlen : A.length ≤ t := by
          by_contra hlt
          push_neg at hlt
          have h0 : t - A.length = 0 := by omega
          rw [h0] at hmemB
          simp at hmemB
        have htake : A.take t = A := List.take_of_length_le hlen
        rw [htake]
        apply List.mem_append_left
        rcases Option.isSome_iff_exists.mp hidO with ⟨a, ha⟩
        exact List.mem_map_of_mem _ (mem_of_lookupKey ha)

/-- Claim C3 witness: the ordering theorem applied to a rebuild of the
concrete one-device registry; the old adapter of d1 is disconnected in
every trace prefix that already connected the new adapter of d1. -/
theorem reload_disconnect_order_witness :
    SwapEvent.disconnectOld "d1" ∈
      ([SwapEvent.disconnectOld "d1", SwapEvent.installSwap,
        SwapEvent.connectNew "d1"].take 3) := by
  obtain ⟨A, B, htr, hAshape, hAall, hBshape, hBall, hmux⟩ :=
    reload_disconnects_old_before_swap_before_connects exSt exSt
      [SwapEvent.disconnectOld "d1", SwapEvent.installSwap, SwapEvent.connectNew "d1"]
      (by decide)
  exact hmux 3 "d1" "d1" (by decide) (by decide)

/-- Claim C4 (amended): the adapter swap itself is all-or-nothing - a
reload that fails (on disk read or on adapter building) leaves the
adapter map exactly as it was and performs no disconnect, swap or connect
event, and a reload that succeeds installs the wholesale-built adapter
map for the new configuration - but the configuration maps are
overwritten before adapters are built, so after a failed build the device
map already holds the new configuration (the counterexample below).  The
initial load is fully atomic: from_config returns an error and no state
at all when build_adapters fails. -/
theorem reload_error_keeps_old_adapters_and_swap_is_wholesale :
    (∀ st disk st' e tr, reloadConfig st disk = (st', .error e, tr) →
      st'.adapters = st.adapters ∧ tr = []) ∧
    (∀ st cfg st' tr, reloadConfig st (.ok cfg) = (st', .ok (), tr) →
      buildAdapters cfg.hosts cfg.mierniki cfg.devices = .ok st'.adapters ∧
      st'.hosts = cfg.hosts ∧ st'.mierniki = cfg.mierniki ∧ st'.devices = cfg.devices) ∧
    (∀ cfg e, buildAdapters cfg.hosts cfg.mierniki cfg.devices = .error e →
      fromConfig cfg = .error e) := by
  refine ⟨?_, ?_, ?_⟩
  · intro st disk st' e tr h
    rcases disk with e' | cfg
    · unfold reloadConfig at h
      have h1 : st = st' := congrArg Prod.fst h
      have h3 : ([] : List SwapEvent) = tr := congrArg (fun p => p.2.2) h
      exact ⟨by rw [← h1], h3.symm⟩
    · unfold reloadConfig rebuildAdapters at h
      rcases hb : buildAdapters cfg.hosts cfg.mierniki cfg.devices with e₀ | ads
      · simp only [hb] at h
        have h1 : (⟨cfg.hosts, cfg.mierniki, cfg.devices, st.adapters, cfg⟩ : ManagerState) = st' :=
          congrArg Prod.fst h
        have h3 : ([] : List SwapEvent) = tr := congrArg (fun p => p.2.2) h
        exact ⟨by rw [← h1], h3.symm⟩
      · simp only [hb] at h
        exact absurd (congrArg (fun p => p.2.1) h) (by simp)
  · intro st cfg st' tr h
    unfold reloadConfig rebuildAdapters at h
    rcases hb : buildAdapters cfg.hosts cfg.mierniki cfg.devices with e₀ | ads
    · simp only [hb] at h
      exact absurd (congrArg (fun p => p.2.1) h) (by simp)
    · simp only [hb] at h
      have h1 : st' = ⟨cfg.hosts, cfg.mierniki, cfg.devices, ads, cfg⟩ :=
        (congrArg Prod.fst h).symm
      subst h1
      exact ⟨rfl, rfl, rfl, rfl⟩
  · intro cfg e hb
    unfold fromConfig
    rw [hb]

/-- Claim C4 witness: the amended theorem applied to a reload of the
empty registry with a configuration whose device references a missing
host; the old (empty) adapter map survives and no swap event happens. -/
theorem reload_error_keeps_old_adapters_witness :
    (⟨[], [], [("d1", exDevice)], [], exCfgBadHost⟩ : ManagerState).adapters =
      exStEmpty.adapters :=
  (reload_error_keeps_old_adapters_and_swap_is_wholesale.1 exStEmpty (.ok exCfgBadHost)
    ⟨[], [], [("d1", exDevice)], [], exCfgBadHost⟩
    (.ConfigurationError "Host 'h1' not found for device 'd1'") [] (by decide)).1

/-- Claim C4 counterexample: the same failed reload leaves the device map
holding the new configuration while the adapter map still holds the old
one - the registry IS left in a mixed state relative to the state before
the operation, contrary to the claim. -/
theorem reload_error_partial_update_counterexample :
    reloadConfig exStEmpty (.ok exCfgBadHost) =
      (⟨[], [], [("d1", exDevice)], [], exCfgBadHost⟩,
        .error (.ConfigurationError "Host 'h1' not found for device 'd1'"), []) ∧
    (⟨[], [], [("d1", exDevice)], [], exCfgBadHost⟩ : ManagerState).devices ≠
      exStEmpty.devices := by
  refine ⟨by decide, by decide⟩

/-! ## takeWhile and decimal-parse lemmas -/

theorem mem_takeWhile_sat {p : Char → Bool} :
    ∀ {l : List Char} {c : Char}, c ∈ l.takeWhile p → p c = true := by
  intro l
  induction l with
  | nil => intro c hc; simp at hc
  | cons x xs ih =>
    intro c hc
    rw [List.takeWhile_cons] at hc
    by_cases hx : p x
    · rw [if_pos hx] at hc
      rcases List.mem_cons.mp hc with rfl | hc'
      · exact hx
      · exact ih hc'
    · rw [if_neg hx] at hc
      simp at hc

theorem takeWhile_all {p : Char → Bool} :
    ∀ {l : List Char}, (∀ c ∈ l, p c = true) → l.takeWhile p = l := by
  intro l
  induction l with
  | nil => intro _; rfl
  | cons x xs ih =>
    intro h
    rw [List.takeWhile_cons, if_pos (h x (List.mem_cons_self x xs))]
    rw [ih fun c hc => h c (List.mem_cons_of_mem x hc)]

theorem dropWhile_all {p : Char → Bool} :
    ∀ {l : List Char}, (∀ c ∈ l, p c = true) → l.dropWhile p = [] := by
  intro l
  induction l with
  | nil => intro _; rfl
  | cons x xs ih =>
    intro h
    rw [List.dropWhile_cons, if_pos (h x (List.mem_cons_self x xs))]
    exact ih fun c hc => h c (List.mem_cons_of_mem x hc)

theorem takeWhile_append_stop {p : Char → Bool} {a : List Char} {x : Char} (r : List Char)
    (ha : ∀ c ∈ a, p c = true) (hx : p x = false) :
    (a ++ x :: r).takeWhile p = a ∧ (a ++ x :: r).dropWhile p = x :: r := by
  induction a with
  | nil => simp [List.takeWhile_cons, List.dropWhile_cons, hx]
  | cons c a ih =>
    have hc : p c = true := ha c (List.mem_cons_self c a)
    have ih' := ih fun d hd => ha d (List.mem_cons_of_mem c hd)
    simp only [List.cons_append, List.takeWhile_cons, List.dropWhile_cons, hc, if_pos]
    exact ⟨by rw [ih'.1], by simpa using ih'.2⟩

theorem parseUnsignedDecimal_digits_dot_digits {a b : List Char}
    (hane : a ≠ []) (_hbne : b ≠ [])
    (ha : ∀ c ∈ a, isAsciiDigit c = true) (hb : ∀ c ∈ b, isAsciiDigit c = true) :
    parseUnsignedDecimal (a ++ '.' :: b) =
      some (mkRat (digitsToNat (a ++ b)) (10 ^ b.length)) := by
  have hdot : isAsciiDigit '.' = false := by decide
  obtain ⟨ht, hd⟩ := takeWhile_append_stop b ha hdot
  unfold parseUnsignedDecimal
  rw [ht, hd]
  simp only [takeWhile_all hb, dropWhile_all hb, List.isEmpty_nil, Bool.true_and]
  have hcond : (!a.isEmpty || !b.isEmpty) = true := by
    cases a with
    | nil => exact absurd rfl hane
    | cons x xs => simp
  rw [if_pos hcond]

theorem parseF64Simple_pattern1_num {a b : List Char} {sign : Char}
    (hsign : sign = '+' ∨ sign = '-') (hane : a ≠ []) (hbne : b ≠ [])
    (ha : ∀ c ∈ a, isAsciiDigit c = true) (hb : ∀ c ∈ b, isAsciiDigit c = true) :
    ∃ v, parseF64Simple (sign :: (a ++ '.' :: b)) = some v := by
  rcases hsign with rfl | rfl
  · refine ⟨mkRat (digitsToNat (a ++ b)) (10 ^ b.length), ?_⟩
    show parseUnsignedDecimal (a ++ '.' :: b) = _
    exact parseUnsignedDecimal_digits_dot_digits hane hbne ha hb
  · refine ⟨-mkRat (digitsToNat (a ++ b)) (10 ^ b.length), ?_⟩
    show (parseUnsignedDecimal (a ++ '.' :: b)).map Neg.neg = _
    rw [parseUnsignedDecimal_digits_dot_digits hane hbne ha hb]
    rfl

/-! ## Pattern-1 capture shape -/

theorem pattern1TryAt_shape {cs code : List Char} {sign : Char} {num unit : List Char}
    (h : pattern1TryAt cs = some (code, sign, num, unit)) :
    (sign = '+' ∨ sign = '-') ∧
    ∃ a b, num = a ++ '.' :: b ∧ a ≠ [] ∧ b ≠ [] ∧
      (∀ c ∈ a, isAsciiDigit c = true) ∧ (∀ c ∈ b, isAsciiDigit c = true) := by
  unfold pattern1TryAt at h
  dsimp only at h
  split at h
  next hcode =>
    split at h
    next sign' rest hdrop =>
      split at h
      next hsign' =>
        split at h
        next => simp at h
        next hane =>
          split at h
          next dot r2 hr1 =>
            split at h
            next hx =>
              subst hx
              split at h
              next => simp at h
              next hbne =>
                have hsign : sign' = '+' ∨ sign' = '-' := by
                  rcases Bool.or_eq_true_iff.mp hsign' with h1 | h1
                  · exact Or.inl (by simpa using h1)
                  · exact Or.inr (by simpa using h1)
                have hshape :
                    cs.take 8 = code ∧ sign' = sign ∧
                      rest.takeWhile isAsciiDigit ++ '.' :: r2.takeWhile isAsciiDigit = num := by
                  split at h
                  next =>
                    simp only [Option.some.injEq, Prod.mk.injEq] at h
                    exact ⟨h.1, h.2.1, h.2.2.1⟩
                  next =>
                    split at h
                    next =>
                      simp only [Option.some.injEq, Prod.mk.injEq] at h
                      exact ⟨h.1, h.2.1, h.2.2.1⟩
                    next => simp at h
                obtain ⟨-, hs, hn⟩ := hshape
                subst hs
                refine ⟨hsign, rest.takeWhile isAsciiDigit, r2.takeWhile isAsciiDigit,
                  hn.symm, ?_, ?_, ?_, ?_⟩
                · simpa using hane
                · simpa using hbne
                · intro c hc; exact mem_takeWhile_sat hc
                · intro c hc; exact mem_takeWhile_sat hc
            next => simp at h
          next => simp at h
      next => simp at h
    next => simp at h
  next => simp at h

/-- The shape of every successful leftmost pattern-1 match. -/
theorem pattern1Find_shape :
    ∀ {cs code : List Char} {sign : Char} {num unit : List Char},
      pattern1Find cs = some (code, sign, num, unit) →
      (sign = '+' ∨ sign = '-') ∧
      ∃ a b, num = a ++ '.' :: b ∧ a ≠ [] ∧ b ≠ [] ∧
        (∀ c ∈ a, isAsciiDigit c = true) ∧ (∀ c ∈ b, isAsciiDigit c = true) := by
  intro cs
  induction cs with
  | nil => intro code sign num unit h; simp [pattern1Find] at h
  | cons c cs ih =>
    intro code sign num unit h
    unfold pattern1Find at h
    rcases htry : pattern1TryAt (c :: cs) with _ | r
    · rw [htry] at h
      exact ih h
    · rw [htry] at h
      injection h with h'
      subst h'
      exact pattern1TryAt_shape htry

/-- Claim C8: for every input with a pattern-1 match (8-digit command
code, sign, decimal number, kg or lb, no separators) the parser returns a
reading whose channel is selected by the command code - 20050026 fills
the gross channel, anything else the net channel - with the non-selected
channel 0 and the stability flag forced true; and the two concrete
responses of the spec parse to gross 123.45 and net -23.5 readings. -/
theorem rincmd_pattern1_channel_selection :
    (∀ (cs code : List Char) (sign : Char) (num unit : List Char),
      pattern1Find cs = some (code, sign, num, unit) →
      parseRincmdResponse cs =
        .ok { gross_weight := if code = "20050026".data then signedNumVal sign num else 0,
              net_weight := if code = "20050026".data then 0 else signedNumVal sign num,
              unit := ⟨toLowerStr unit⟩, is_stable := true }) ∧
    parseRincmdResponse "20050026+123.45kg".data = .ok ⟨mkRat 2469 20, 0, "kg", true⟩ ∧
    parseRincmdResponse "20050025-23.5kg".data = .ok ⟨0, mkRat (-47) 2, "kg", true⟩ := by
  refine ⟨?_, by decide, by decide⟩
  intro cs code sign num unit hfind
  have hempty : cs.isEmpty = false := by
    cases cs with
    | nil => simp [pattern1Find] at hfind
    | cons c rest => rfl
  obtain ⟨hsign, a, b, hnum, hane, hbne, hadig, hbdig⟩ := pattern1Find_shape hfind
  subst hnum
  obtain ⟨v, hv⟩ := parseF64Simple_pattern1_num hsign hane hbne hadig hbdig
  have hval : signedNumVal sign (a ++ '.' :: b) = v := by
    simp [signedNumVal, hv]
  unfold parseRincmdResponse
  rw [hempty]
  rw [if_neg (by simp)]
  rw [hfind]
  dsimp only
  rw [hv, hval]

/-- Claim C8 witness: the channel-selection theorem applied to the gross
response, with its pattern-1 captures computed. -/
theorem rincmd_pattern1_witness :
    parseRincmdResponse "20050026+123.45kg".data = .ok ⟨mkRat 2469 20, 0, "kg", true⟩ := by
  have h := rincmd_pattern1_channel_selection.1 "20050026+123.45kg".data
    "20050026".data '+' "123.45".data "kg".data (by decide)
  rw [h]
  decide

/-- Claim C6: every input that trims to OK in any letter case is accepted
by the Dini Argeo parser as a zero-weight stable tare or zero
confirmation, not as a parse error. -/
theorem dini_ok_is_zero_stable_confirmation (s : List Char)
    (h : rustTrim s = "OK".data ∨ rustTrim s = "Ok".data ∨
         rustTrim s = "oK".data ∨ rustTrim s = "ok".data) :
    parseDiniAsciiResponse s = .ok ⟨0, 0, "kg", true⟩ := by
  have hne : s.isEmpty = false := by
    cases s with
    | nil =>
      exfalso
      rcases h with h | h | h | h <;> exact absurd h (by decide)
    | cons c cs => rfl
  have hup : toUpperStr (rustTrim s) = "OK".data := by
    rcases h with h | h | h | h <;> rw [h] <;> decide
  unfold parseDiniAsciiResponse
  rw [hne]
  rw [if_neg (by simp)]
  dsimp only
  rw [if_pos hup]

/-- Claim C6 witness: the confirmation theorem applied to a lower-case
response with surrounding whitespace. -/
theorem dini_ok_witness :
    parseDiniAsciiResponse "  ok ".data = .ok ⟨0, 0, "kg", true⟩ :=
  dini_ok_is_zero_stable_confirmation "  ok ".data (Or.inr (Or.inr (Or.inr (by decide))))

/-- Claim C7 counterexample: the comma-separated response parses to
value 23.45, stable, as claimed - but the reported unit is the lowercased
FIRST alphabetic run of the input, here the ST stability field, not the
kg token after the number. -/
theorem dini_unit_first_run_counterexample :
    parseDiniAsciiResponse "ST,GS,+00023.450kg".data =
      .ok ⟨mkRat 469 20, mkRat 469 20, "st", true⟩ ∧
    ("st" : String) ≠ "kg" :=
  ⟨by decide, by decide⟩

/-- Claim C7 (amended): the Dini Argeo parser maps
ST,GS,+00023.450kg to value 23.45, stable, and US,NT,-12.5kg to value
-12.5, unstable; both channels carry the single parsed value, and the
reported unit is the lowercased first alphabetic run of the whole trimmed
input (st and us here), with kg only as the default when no such run
exists - not the run following the numeric match. -/
theorem dini_fallback_values_and_first_unit_run :
    parseDiniAsciiResponse "ST,GS,+00023.450kg".data =
      .ok ⟨mkRat 469 20, mkRat 469 20, "st", true⟩ ∧
    parseDiniAsciiResponse "US,NT,-12.5kg".data =
      .ok ⟨mkRat (-25) 2, mkRat (-25) 2, "us", false⟩ ∧
    (∀ (s : List Char) (r : WeightReading), parseDiniAsciiResponse s = .ok r →
      toUpperStr (rustTrim s) ≠ "OK".data →
      r.unit = ⟨((unitFind (rustTrim s)).map toLowerStr).getD "kg".data⟩ ∧
      r.gross_weight = r.net_weight) := by
  refine ⟨by decide, by decide, ?_⟩
  intro s r hok hnot
  unfold parseDiniAsciiResponse at hok
  split at hok
  next => exact absurd hok (by simp)
  next =>
    dsimp only at hok
    rw [if_neg hnot] at hok
    split at hok
    next => exact absurd hok (by simp)
    next numStr hfind =>
      split at hok
      next => exact absurd hok (by simp)
      next w hw =>
        injection hok with h'
        rw [← h']
        exact ⟨rfl, rfl⟩

/-- Claim C7 witness: the amended theorem applied to the standard
comma-separated response. -/
theorem dini_fallback_unit_witness :
    (⟨mkRat 469 20, mkRat 469 20, "st", true⟩ : WeightReading).unit =
      ⟨((unitFind (rustTrim "ST,GS,+00023.450kg".data)).map toLowerStr).getD "kg".data⟩ ∧
    (⟨mkRat 469 20, mkRat 469 20, "st", true⟩ : WeightReading).gross_weight =
      (⟨mkRat 469 20, mkRat 469 20, "st", true⟩ : WeightReading).net_weight :=
  dini_fallback_values_and_first_unit_run.2.2 "ST,GS,+00023.450kg".data
    ⟨mkRat 469 20, mkRat 469 20, "st", true⟩ (by decide) (by decide)

/-- Claim C5 counterexample: on the response :1A2B the code parses the
decimal prefix 1 of the hex-looking run (and reports unit A), while the
claimed rule - interpret the leading hex run after the last colon as a
32-bit two's-complement value when it holds an A-F letter - demands
0x1A2B = 6699.  There is no hexadecimal branch in the source parser. -/
theorem rincmd_hex_after_last_colon_counterexample :
    parseRincmdResponse ":1A2B".data = .ok ⟨1, 1, "A", false⟩ ∧
    rincmdHexSpecValue ":1A2B".data = some (mkRat 6699 1) ∧
    (1 : ℚ) ≠ mkRat 6699 1 :=
  ⟨by decide, by decide, by decide⟩

/-- Claim C5 (amended): in the free-form fallback the numeric value is
searched in the text after the FIRST colon of the normalised input (the
whole input when no colon occurs), and the leftmost optionally-signed
decimal number found there is parsed as plain decimal - hex digit runs
receive no two's-complement interpretation, a digit run that opens a
hex-looking run is read as its decimal prefix.  The universal part shows
every successful fallback parse agrees with this first-colon plain-
decimal rule; the concrete parts pin the hex behaviour and the
first-versus-last colon choice (after the first colon of X:12:5kg the
first number is 12, where the last-colon reading would give 5). -/
theorem rincmd_fallback_first_colon_plain_decimal :
    (∀ (s : List Char) (r : WeightReading),
      pattern1Find s = none → pattern2Find s = none →
      parseRincmdResponse s = .ok r →
      rincmdFallbackSpecValue s = some r.gross_weight) ∧
    parseRincmdResponse ":1A2B".data = .ok ⟨1, 1, "A", false⟩ ∧
    parseRincmdResponse "X:12:5kg".data = .ok ⟨12, 12, "kg", false⟩ := by
  refine ⟨?_, by decide, by decide⟩
  intro s r h1 h2 hok
  have hne : s.isEmpty = false := by
    cases s with
    | nil => simp [parseRincmdResponse] at hok
    | cons c cs => rfl
  unfold parseRincmdResponse at hok
  rw [hne] at hok
  rw [if_neg (by simp)] at hok
  rw [h1, h2] at hok
  unfold rincmdFallbackSpecValue
  dsimp only at hok ⊢
  split at hok
  next => exact absurd hok (by simp)
  next =>
    split at hok
    next => exact absurd hok (by simp)
    next t0 ht0 =>
      split at hok
      next => exact absurd hok (by simp)
      next m after hfound =>
        split at hok
        next => exact absurd hok (by simp)
        next w hw =>
          rw [hw]
          injection hok with h'
          rw [← h']

/-- Claim C5 witness: the amended theorem applied to :1A2B, whose
fallback value is the decimal 1. -/
theorem rincmd_fallback_first_colon_witness :
    rincmdFallbackSpecValue ":1A2B".data =
      some ((⟨1, 1, "A", false⟩ : WeightReading).gross_weight) :=
  rincmd_fallback_first_colon_plain_decimal.1 ":1A2B".data ⟨1, 1, "A", false⟩
    (by decide) (by decide) (by decide)

/-! ## Case-insensitive command lookup (C9) -/

theorem normFold_lookup_some {k v : String} :
    ∀ (cmds acc : List (String × String)),
      (∀ p ∈ cmds, lowerS p.1 = k → p.2 = v) →
      (lookupKey k acc = some v ∨ ∃ p, p ∈ cmds ∧ lowerS p.1 = k) →
      lookupKey k (cmds.foldl (fun acc kv => insertKey (lowerS kv.1) kv.2 acc) acc) = some v := by
  intro cmds
  induction cmds with
  | nil =>
    intro acc hall hcase
    rcases hcase with h | ⟨p, hp, _⟩
    · simpa using h
    · simp at hp
  | cons q rest ih =>
    intro acc hall hcase
    simp only [List.foldl_cons]
    by_cases hq : lowerS q.1 = k
    · have hv : q.2 = v := hall q (List.mem_cons_self q rest) hq
      refine ih _ (fun p hp hpk => hall p (List.mem_cons_of_mem q hp) hpk) (Or.inl ?_)
      rw [lookupKey_insertKey, hq, if_pos rfl, hv]
    · refine ih _ (fun p hp hpk => hall p (List.mem_cons_of_mem q hp) hpk) ?_
      rcases hcase with h | ⟨p, hp, hpk⟩
      · exact Or.inl (by rw [lookupKey_insertKey, if_neg hq]; exact h)
      · rcases List.mem_cons.mp hp with rfl | hp'
        · exact absurd hpk hq
        · exact Or.inr ⟨p, hp', hpk⟩

theorem normFold_lookup_none {k : String} :
    ∀ (cmds acc : List (String × String)),
      (∀ p ∈ cmds, lowerS p.1 ≠ k) → lookupKey k acc = none →
      lookupKey k (cmds.foldl (fun acc kv => insertKey (lowerS kv.1) kv.2 acc) acc) = none := by
  intro cmds
  induction cmds with
  | nil => intro acc _ hacc; simpa using hacc
  | cons q rest ih =>
    intro acc hall hacc
    simp only [List.foldl_cons]
    refine ih _ (fun p hp => hall p (List.mem_cons_of_mem q hp)) ?_
    rw [lookupKey_insertKey, if_neg (hall q (List.mem_cons_self q rest))]
    exact hacc

/-- Claim C9: logical command lookup is case-insensitive.  For a command
map built from configuration holding a key (with no clashing key of the
same lower-casing), every request that equals the key up to letter case
resolves to the same raw device command; a request matching no key under
any casing yields the typed unknown-command error, never a fallback. -/
theorem command_lookup_case_insensitive :
    (∀ (cmds : List (String × String)) (k v : String), (k, v) ∈ cmds →
      (∀ p ∈ cmds, lowerS p.1 = lowerS k → p.2 = v) →
      ∀ q, lowerS q = lowerS k →
        deviceLookupCommand (normalizeCmdKeys cmds) q = .ok v) ∧
    (∀ (cmds : List (String × String)) (q : String),
      (∀ p ∈ cmds, lowerS p.1 ≠ lowerS q) →
      deviceLookupCommand (normalizeCmdKeys cmds) q =
        .error (.InvalidCommand ("Unknown command: " ++ q))) := by
  constructor
  · intro cmds k v hmem hall q hq
    unfold deviceLookupCommand normalizeCmdKeys
    rw [hq]
    rw [normFold_lookup_some cmds [] hall (Or.inr ⟨(k, v), hmem, rfl⟩)]
  · intro cmds q hnone
    unfold deviceLookupCommand normalizeCmdKeys
    rw [normFold_lookup_none cmds [] hnone rfl]

/-- Claim C9 witness: a map built with key readGross resolves through
readgross, READGROSS and ReadGross, and an absent command is the typed
unknown-command error. -/
theorem command_lookup_case_insensitive_witness :
    deviceLookupCommand (normalizeCmdKeys exCommands) "readgross" = .ok "20050026" ∧
    deviceLookupCommand (normalizeCmdKeys exCommands) "READGROSS" = .ok "20050026" ∧
    deviceLookupCommand (normalizeCmdKeys exCommands) "ReadGross" = .ok "20050026" ∧
    deviceLookupCommand (normalizeCmdKeys exCommands) "tare" =
      .error (.InvalidCommand "Unknown command: tare") :=
  ⟨command_lookup_case_insensitive.1 exCommands "readGross" "20050026" (by decide)
      (by decide) "readgross" (by decide),
   command_lookup_case_insensitive.1 exCommands "readGross" "20050026" (by decide)
      (by decide) "READGROSS" (by decide),
   command_lookup_case_insensitive.1 exCommands "readGross" "20050026" (by decide)
      (by decide) "ReadGross" (by decide),
   command_lookup_case_insensitive.2 exCommands "tare" (by decide)⟩

end Bridge

